import Mathlib

/-!
Verification development for the ReflexPDF repository: a shallow embedding of
the plugin host in src/ReflexPDF/core.py and of the plugin
src/ReflexPDF/plugins/cortar_pdf/cortar_pdf.py, together with theorems about
the embedded operations.
-/

namespace ReflexPDF

/-- Lowercasing of a string character by character, embedding the Python
expression pname.lower() over the character sequence (the parameter names it
is applied to are ASCII identifiers). -/
def strToLower (s : String) : String :=
  String.mk (s.toList.map Char.toLower)

/-- Boolean substring test over the character sequence, embedding the Python
expression needle in hay (used in core.py for parameter-name heuristics and
for the watcher path check). -/
def strContains (hay needle : String) : Bool :=
  decide (needle.toList <:+: hay.toList)

/-- Boolean suffix test over the character sequence, embedding the Python
expression path.endswith(suffix). -/
def strEndsWith (s suf : String) : Bool :=
  decide (suf.toList <:+ s.toList)

/-- Kinds of input widget the dynamic form builder creates for a parameter
(core.py, CoreApp._build_form_for). -/
inductive WidgetKind where
  | filePicker
  | dirPicker
  | textEntry
deriving DecidableEq, Repr

/-- Classification of a parameter name by the substring heuristic of
CoreApp._build_form_for (core.py lines 229-253): a name containing "file"
gets a file picker; otherwise a name containing "dir" or "output" gets a
directory picker; any other name gets a plain text entry. -/
def classifyParam (pname : String) : WidgetKind :=
  if strContains (strToLower pname) "file" then WidgetKind.filePicker
  else if strContains (strToLower pname) "dir" || strContains (strToLower pname) "output" then
    WidgetKind.dirPicker
  else WidgetKind.textEntry

/-- Keyword arguments of a plugin call: an association list from parameter
name to bound string value, embedding the Python dict (insertion order). -/
abbrev Args := List (String × String)

/-- Membership of a key in a call-argument dict, embedding the Python
expression pname in call_args. -/
def argsHasKey (a : Args) (k : String) : Bool :=
  (a.lookup k).isSome

/-- Base arguments prepared by CoreApp._on_execute_folder_clicked (core.py
lines 308-311): every parameter whose name contains "dir" or "output" is
bound to the chosen output directory. -/
def baseArgsFor (params : List String) (outdir : String) : Args :=
  params.filterMap (fun pname =>
    if strContains (strToLower pname) "dir" || strContains (strToLower pname) "output" then
      some (pname, outdir)
    else none)

/-- The per-file argument binding of CoreApp._run_plugin_on_folder (core.py
lines 348-352): starting from a copy of the base arguments, iterate the
parameters in signature order and bind the file path to the first parameter
whose name contains "file" and that is not already bound, then stop. -/
def bindFirstFile (base : Args) (fpath : String) : List String → Args
  | [] => base
  | pname :: rest =>
    if strContains (strToLower pname) "file" && !(argsHasKey base pname) then
      base ++ [(pname, fpath)]
    else
      bindFirstFile base fpath rest

/-- The first parameter eligible to receive the iterated file path: the first
name containing "file" that the base arguments do not already bind. -/
def firstEligible (params : List String) (base : Args) : Option String :=
  params.find? (fun pname => strContains (strToLower pname) "file" && !(argsHasKey base pname))

/-- The parameter list of plugins/juntar_texto/juntar_texto.py main
(input_file1, input_file2, output_dir), in signature order. -/
def juntarTextoParams : List String :=
  ["input_file1", "input_file2", "output_dir"]

/-- A directory entry seen by os.listdir in the input folder: its name and
whether it is a regular file (os.path.isfile). -/
structure Entry where
  name : String
  isFile : Bool
deriving DecidableEq, Repr

/-- Order on folder entries by filename, embedding the comparison used by
Python sorted on the result of os.listdir. -/
def entryLE (a b : Entry) : Prop := a.name ≤ b.name

instance : DecidableRel entryLE :=
  fun a b => inferInstanceAs (Decidable (a.name ≤ b.name))

instance : IsTotal Entry entryLE :=
  ⟨fun a b => le_total a.name b.name⟩

instance : IsTrans Entry entryLE :=
  ⟨fun _ _ _ h1 h2 => le_trans h1 h2⟩

/-- The sorted listing files = sorted(os.listdir(folder)) of core.py line
339, embedded as a sort of the abstract entry list by filename. -/
def sortEntries (l : List Entry) : List Entry :=
  List.insertionSort entryLE l

/-- Events placed on the thread-safe queue self.event_q of core.py: log
lines, error notifications, filesystem-change notifications, and the
catch-all pair of an unknown type tag with its payload. -/
inductive QEvent where
  | logMsg (msg : String)
  | errorMsg (msg : String)
  | fsChange (path : String)
  | other (typ payload : String)
deriving DecidableEq, Repr

/-- Outcome of one invocation of a plugin main callable: normal return or a
raised exception carrying its message. -/
abbrev PluginRun := Args → Except String Unit

/-- Boolean test that a plugin invocation returned without raising. -/
def exceptOk : Except String Unit → Bool
  | Except.ok _ => true
  | Except.error _ => false

/-- Embedding of CoreApp._run_plugin_thread (core.py lines 325-334): the
worker announces the start, calls the plugin, and on an exception enqueues
both a log event and an error event; the exception text of the log event in
the source also carries the traceback, which the embedding omits. The
embedding is a total function: the except-clause of the source catches every
exception, so nothing propagates. -/
def runPluginThread (run : PluginRun) (pid : String) (args : Args) : List QEvent :=
  QEvent.logMsg ("Iniciando plugin " ++ pid ++ " ...") ::
  match run args with
  | Except.ok _ => [QEvent.logMsg ("Plugin " ++ pid ++ " executado com sucesso.")]
  | Except.error e =>
    [QEvent.logMsg ("Erro ao executar " ++ pid ++ ": " ++ e),
     QEvent.errorMsg ("Erro ao executar " ++ pid ++ ": " ++ e)]

/-- Accumulated outcome of the per-file loop of
CoreApp._run_plugin_on_folder: the queue events it emitted, the argument
dicts of the invocations it made (in order), and the success counter. -/
structure FolderAcc where
  events : List QEvent
  invocations : List Args
  processed : Nat
deriving Repr

/-- The per-file loop of CoreApp._run_plugin_on_folder (core.py lines
342-359): skip non-file entries; otherwise bind the file path, invoke the
plugin, and on success increment the counter and log progress, on an
exception log the failure (the traceback text of the source log line is
omitted) and continue with the next file. -/
def folderLoop (run : PluginRun) (params : List String) (folder : String)
    (base : Args) (total : Nat) : List Entry → Nat → FolderAcc
  | [], processed => { events := [], invocations := [], processed := processed }
  | e :: rest, processed =>
    if e.isFile then
      let fpath := folder ++ "/" ++ e.name
      let callArgs := bindFirstFile base fpath params
      match run callArgs with
      | Except.ok _ =>
        let acc := folderLoop run params folder base total rest (processed + 1)
        { events := QEvent.logMsg ("[" ++ toString (processed + 1) ++ "/" ++ toString total
              ++ "] " ++ e.name ++ " processado.") :: acc.events,
          invocations := callArgs :: acc.invocations,
          processed := acc.processed }
      | Except.error err =>
        let acc := folderLoop run params folder base total rest processed
        { events := QEvent.logMsg ("Erro em " ++ e.name ++ ": " ++ err) :: acc.events,
          invocations := callArgs :: acc.invocations,
          processed := acc.processed }
    else
      folderLoop run params folder base total rest processed

/-- Full outcome of a batch run over a folder. -/
structure FolderRun where
  events : List QEvent
  invocations : List Args
  processed : Nat
  total : Nat
deriving Repr

/-- Embedding of CoreApp._run_plugin_on_folder (core.py lines 336-360): sort
the folder listing, take its length as the total, run the per-file loop, and
wrap it between the start log line and the final report line. -/
def runPluginOnFolder (run : PluginRun) (params : List String) (pid folder : String)
    (entries : List Entry) (base : Args) : FolderRun :=
  let files := sortEntries entries
  let total := files.length
  let acc := folderLoop run params folder base total files 0
  { events := QEvent.logMsg ("Iniciando execução em pasta: " ++ folder
        ++ " para plugin " ++ pid) ::
      acc.events
      ++ [QEvent.logMsg ("Execução em pasta finalizada. " ++ toString acc.processed
        ++ "/" ++ toString total ++ " arquivos processados.")],
    invocations := acc.invocations,
    processed := acc.processed,
    total := total }

/-- User-visible reactions of the UI thread when it processes one dequeued
event (core.py CoreApp._process_event_queue). -/
inductive UIAction where
  | writeLogPanel (msg : String)
  | showMessageBox (title msg : String)
  | reloadAllPlugins
deriving DecidableEq, Repr

/-- Embedding of the dispatch in CoreApp._process_event_queue (core.py lines
381-390): a filesystem change is logged and answered by a full plugin
reload; a log event is written to the log panel; an error event is shown in
a message box; anything else is logged as unknown. -/
def processEvent (ev : QEvent) : List UIAction :=
  match ev with
  | QEvent.fsChange p =>
    [UIAction.writeLogPanel ("Alteração detectada: " ++ p ++ ". Recarregando plugins..."),
     UIAction.reloadAllPlugins]
  | QEvent.logMsg m => [UIAction.writeLogPanel m]
  | QEvent.errorMsg m => [UIAction.showMessageBox "Erro" m]
  | QEvent.other t p => [UIAction.writeLogPanel ("Evento desconhecido: " ++ t ++ " -> " ++ p)]

/-- The path filter of _WatcherHandler._is_plugin_py (core.py lines
104-106): the absolute path ends with ".py" and contains the absolute
plugins directory as a substring. Paths are modelled already absolute. -/
def isPluginPy (pluginsDir path : String) : Bool :=
  strEndsWith path ".py" && strContains path pluginsDir

/-- The kinds of filesystem event the watchdog handler overrides
(on_created, on_modified, on_deleted in core.py lines 108-118). -/
inductive FsEventKind where
  | created
  | modified
  | deleted
deriving DecidableEq, Repr

/-- Embedding of the three watchdog callbacks of _WatcherHandler (core.py
lines 108-118): each of created, modified and deleted enqueues one fs_change
event exactly when the path passes _is_plugin_py. -/
def watcherEnqueue (pluginsDir : String) (k : FsEventKind) (srcPath : String) : List QEvent :=
  match k with
  | FsEventKind.created =>
    if isPluginPy pluginsDir srcPath then [QEvent.fsChange srcPath] else []
  | FsEventKind.modified =>
    if isPluginPy pluginsDir srcPath then [QEvent.fsChange srcPath] else []
  | FsEventKind.deleted =>
    if isPluginPy pluginsDir srcPath then [QEvent.fsChange srcPath] else []

/-- Values that CoreApp._collect_form_args can bind: the raw string of the
entry widget or its integer conversion. -/
inductive PyVal where
  | pyStr (s : String)
  | pyInt (n : Nat)
deriving DecidableEq, Repr

/-- The Unicode character classifications that the Python runtime consults
in CoreApp._collect_form_args, kept abstract like the import environment of
the plugin manager: isDigitChar is the per-character test behind
str.isdigit (Numeric_Type Digit or Decimal, which includes superscripts
such as the squared sign), isDecimalChar is the stricter class of decimal
digits (general category Nd) that int() accepts, and decimalVal is the
decimal value 0-9 of a decimal digit character. In the real database the
decimal digits are a subset of the digit characters. -/
structure UnicodeDb where
  isDigitChar : Char → Bool
  isDecimalChar : Char → Bool
  decimalVal : Char → Nat

/-- Embedding of the Python test val.isdigit() used in
CoreApp._collect_form_args (core.py line 320): true exactly for a nonempty
string all of whose characters are digit characters of the given
database. -/
def pyIsdigit (u : UnicodeDb) (s : String) : Bool :=
  !s.isEmpty && s.toList.all u.isDigitChar

/-- The base-10 value of a string of decimal digit characters. -/
def pyIntValue (u : UnicodeDb) (s : String) : Nat :=
  s.toList.foldl (fun acc c => 10 * acc + u.decimalVal c) 0

/-- Embedding of the call int(val) of core.py line 321 at its only call
site, where val.isdigit() already holds: CPython then succeeds exactly when
every character is a decimal digit (category Nd) and returns the base-10
value of their decimal values; on a digit character outside Nd (such as a
superscript) it raises ValueError. -/
def pyIntOfString (u : UnicodeDb) (s : String) : Except String Nat :=
  if !s.isEmpty && s.toList.all u.isDecimalChar then Except.ok (pyIntValue u s)
  else Except.error "ValueError"

/-- Conversion applied to one form value by CoreApp._collect_form_args
(core.py lines 319-321): when isdigit holds, the value of int(val), whose
ValueError propagates (there is no try/except around the conversion);
otherwise the string is kept unchanged. -/
def convertVal (u : UnicodeDb) (v : String) : Except String PyVal :=
  if pyIsdigit u v then Except.map PyVal.pyInt (pyIntOfString u v)
  else Except.ok (PyVal.pyStr v)

/-- Embedding of CoreApp._collect_form_args (core.py lines 315-323): bind
every form field to its converted value in order; a ValueError raised by a
conversion aborts the collection and propagates out of the method. -/
def collectFormArgs (u : UnicodeDb) : List (String × String) →
    Except String (List (String × PyVal))
  | [] => Except.ok []
  | f :: rest =>
    match convertVal u f.2 with
    | Except.error e => Except.error e
    | Except.ok w =>
      match collectFormArgs u rest with
      | Except.error e => Except.error e
      | Except.ok ws => Except.ok ((f.1, w) :: ws)

/-- The decimal digit characters of a concrete fragment of the Unicode
database: the ASCII digits, the Arabic-Indic digits and the fullwidth
digits. -/
def sampleDecimal (c : Char) : Bool :=
  (0x30 ≤ c.val && c.val ≤ 0x39) || (0x660 ≤ c.val && c.val ≤ 0x669)
    || (0xFF10 ≤ c.val && c.val ≤ 0xFF19)

/-- Digit characters of the fragment that are not decimal digits: the
superscript digits one, two and three (Numeric_Type Digit, category No). -/
def sampleDigitOnly (c : Char) : Bool :=
  c.val == 0xB9 || c.val == 0xB2 || c.val == 0xB3

/-- A concrete fragment of the Unicode character database, agreeing with
the full database on every code point it classifies: ASCII digits,
Arabic-Indic digits and fullwidth digits are decimal digits with their
usual values, and the superscript digits are digit characters without a
decimal value. Used as the environment for concrete evaluations. -/
def sampleDb : UnicodeDb :=
  { isDigitChar := fun c => sampleDecimal c || sampleDigitOnly c,
    isDecimalChar := sampleDecimal,
    decimalVal := fun c =>
      if 0x660 ≤ c.val && c.val ≤ 0x669 then c.val.toNat - 0x660
      else if 0xFF10 ≤ c.val && c.val ≤ 0xFF19 then c.val.toNat - 0xFF10
      else c.val.toNat - 0x30 }

/-- In the sample fragment, as in the full database, every decimal digit
character is a digit character. -/
theorem sampleDb_decimal_subset :
    ∀ c, sampleDb.isDecimalChar c = true → sampleDb.isDigitChar c = true := by
  intro c h
  simp only [sampleDb, Bool.or_eq_true]
  exact Or.inl h

/-- A directory entry of os.listdir(plugins_dir) as PluginManager.discover
sees it: its name, whether it is a subdirectory, and whether that
subdirectory contains a module file named after it (name/name.py). -/
structure FsDirEntry where
  name : String
  isSubdir : Bool
  hasModuleFile : Bool
deriving DecidableEq, Repr

/-- Embedding of PluginManager.discover (core.py lines 40-51): collect the
names of the subdirectories that contain a module file named after the
directory, sorted. -/
def discover (listing : List FsDirEntry) : List String :=
  List.insertionSort (fun a b => a ≤ b)
    ((listing.filter (fun d => d.isSubdir && d.hasModuleFile)).map FsDirEntry.name)

/-- An imported plugin module as load_all inspects it: whether it has an
attribute main and whether that attribute is callable, plus the optional
display-metadata attributes and docstring. -/
structure PyModule where
  hasMain : Bool
  mainCallable : Bool
  pluginNameAttr : Option String
  pluginCategoryAttr : Option String
  pluginDescriptionAttr : Option String
  pluginIconAttr : Option String
  docString : Option String
deriving DecidableEq, Repr

/-- The import environment: what importing (or reloading) the module of a
given plugin directory yields — none when the import raises. -/
abbrev ImportEnv := String → Option PyModule

/-- The metadata record built for a registered plugin (core.py lines
66-74). The callable main of the source record is represented through the
stored module. -/
structure PluginMeta where
  pluginId : String
  displayName : String
  category : String
  description : String
  icon : Option String
  modRef : PyModule
deriving DecidableEq, Repr

/-- Construction of the metadata dict of core.py lines 66-74, with the
getattr defaults: name defaults to the directory name, category to "Geral",
description to the docstring or the empty string, icon to None. -/
def mkMeta (name : String) (m : PyModule) : PluginMeta :=
  { pluginId := name,
    displayName := m.pluginNameAttr.getD name,
    category := m.pluginCategoryAttr.getD "Geral",
    description := m.pluginDescriptionAttr.getD (m.docString.getD ""),
    icon := m.pluginIconAttr,
    modRef := m }

/-- The two registries of PluginManager (core.py lines 37-38), embedded as
maps from plugin id to entry. -/
structure PMState where
  modules : String → Option PyModule
  meta : String → Option PluginMeta

/-- Pointwise update of a registry map, embedding a dict assignment. -/
def mapUpdate {β : Type} (f : String → Option β) (k : String) (v : β) :
    String → Option β :=
  fun n => if n = k then some v else f n

/-- Intermediate state of the loop body of load_all: the modules registry
being mutated in place, the new_meta dict being built, and the log lines
emitted so far. -/
structure LoadStep where
  modules : String → Option PyModule
  newMeta : String → Option PluginMeta
  logs : List String

/-- One iteration of the loop of load_all (core.py lines 58-82): import (or
reload) the module of one discovered directory; on success with a callable
main, record it in new_meta and in modules and log the load; without a
callable main, log that it is ignored; on an import exception, log the
error (the exception text of the source log line is omitted) and move on.
Every branch returns, so no exception propagates. -/
def loadOne (env : ImportEnv) (st : LoadStep) (name : String) : LoadStep :=
  match env name with
  | none =>
    { st with logs := st.logs ++ ["[PluginManager] Erro ao carregar " ++ name] }
  | some m =>
    if m.hasMain && m.mainCallable then
      { modules := mapUpdate st.modules name m,
        newMeta := mapUpdate st.newMeta name (mkMeta name m),
        logs := st.logs ++ ["[PluginManager] Carregado: " ++ name] }
    else
      { st with logs := st.logs ++ ["[PluginManager] Ignorado (sem main): " ++ name] }

/-- Result of one call to load_all: the registries afterwards and the log
lines emitted. -/
structure LoadResult where
  state : PMState
  logs : List String

/-- Embedding of PluginManager.load_all (core.py lines 53-89): discover the
plugin directories, run the loading loop over them starting from an empty
new_meta, then drop from modules every id that was in the old meta but is
absent from new_meta, and install new_meta as the meta registry. The log
lines for removed ids are not modelled because the registries are embedded
as maps. -/
def loadAll (listing : List FsDirEntry) (env : ImportEnv) (st : PMState) : LoadResult :=
  let found := discover listing
  let init : LoadStep := { modules := st.modules, newMeta := fun _ => none, logs := [] }
  let stepped := found.foldl (loadOne env) init
  let modulesAfter : String → Option PyModule := fun n =>
    if (st.meta n).isSome && (stepped.newMeta n).isNone then none else stepped.modules n
  { state := { modules := modulesAfter, meta := stepped.newMeta },
    logs := stepped.logs }

/-- Qualification of a directory name for registration: it is among the
discovered plugin directories, its module imports without raising, and the
module has an attribute main that is callable. -/
def qualifies (listing : List FsDirEntry) (env : ImportEnv) (n : String) : Prop :=
  n ∈ discover listing ∧ ∃ m, env n = some m ∧ m.hasMain = true ∧ m.mainCallable = true

instance (listing : List FsDirEntry) (env : ImportEnv) (n : String) :
    Decidable (qualifies listing env n) := by
  unfold qualifies
  have : Decidable (∃ m, env n = some m ∧ m.hasMain = true ∧ m.mainCallable = true) := by
    cases h : env n with
    | none => exact isFalse (by simp)
    | some m => exact decidable_of_iff (m.hasMain = true ∧ m.mainCallable = true) (by simp)
  exact instDecidableAnd

/-- Python range(start, stop, step) over the naturals with a positive step,
as used in the page loop of cortar_pdf (cortar_pdf.py line 28); a
non-positive step yields the empty list (the source never passes one). -/
def pyRange3 (start stop step : Nat) : List Nat :=
  if _h1 : 0 < step then
    if _h2 : start < stop then start :: pyRange3 (start + step) stop step
    else []
  else []
termination_by stop - start
decreasing_by omega

/-- Embedding of plugins/cortar_pdf/cortar_pdf.py main (lines 19-39): read
the pages of the input PDF, and for each start in range(0, total_pages,
chunk_size) write the pages with indices start..min(start+chunk_size,
total_pages)-1 to output_dir/parte_{start//chunk_size + 1}.pdf. The result
lists, in order, each written path with the page list of that file; the
inner index loop is embedded as the corresponding slice of the page
list. -/
def cortarPdfMain {α : Type} (pages : List α) (outputDir : String) (chunkSize : Nat) :
    List (String × List α) :=
  (pyRange3 0 pages.length chunkSize).map (fun start =>
    let e := min (start + chunkSize) pages.length
    (outputDir ++ "/parte_" ++ toString (start / chunkSize + 1) ++ ".pdf",
     (pages.drop start).take (e - start)))

/-! Helper lemmas shared by the claim theorems. -/

/-- The per-file binding adds the file path at the first eligible parameter
found in signature order, or leaves the base arguments unchanged when no
parameter is eligible. -/
theorem bindFirstFile_eq (base : Args) (fpath : String) :
    ∀ params : List String,
      bindFirstFile base fpath params =
        match firstEligible params base with
        | none => base
        | some p => base ++ [(p, fpath)]
  | [] => rfl
  | p :: rest => by
    rw [bindFirstFile]
    by_cases h : (strContains (strToLower p) "file" && !(argsHasKey base p)) = true
    · rw [if_pos h]
      have hfe : firstEligible (p :: rest) base = some p := by
        unfold firstEligible
        exact List.find?_cons_of_pos rest h
      rw [hfe]
    · rw [if_neg h]
      have hfe : firstEligible (p :: rest) base = firstEligible rest base := by
        unfold firstEligible
        exact List.find?_cons_of_neg rest h
      rw [hfe]
      exact bindFirstFile_eq base fpath rest

/-- Looking up a key absent from an association list after appending one
binding for a different key still fails. -/
theorem lookup_append_single (q p f : String) :
    ∀ a : Args, a.lookup q = none →
      (a ++ [(p, f)]).lookup q = if q = p then some f else none
  | [], _ => by
    by_cases hqp : q = p
    · subst hqp
      simp [List.lookup]
    · have hb : (q == p) = false := by simp [hqp]
      simp [List.lookup, hb, hqp]
  | (k, v) :: xs, h => by
    by_cases hk : q = k
    · subst hk
      simp [List.lookup] at h
    · have hkb : (q == k) = false := by simp [hk]
      simp only [List.lookup, hkb, List.cons_append] at h ⊢
      exact lookup_append_single q p f xs h

/-! Claim theorems. -/

/-- A value passing the isdigit test is nonempty. -/
theorem pyIsdigit_isEmpty_false (u : UnicodeDb) (v : String) (h : pyIsdigit u v = true) :
    v.isEmpty = false := by
  unfold pyIsdigit at h
  rw [Bool.and_eq_true, Bool.not_eq_true'] at h
  exact h.1

/-- When no field value is a digit string outside the decimal digits, the
collection returns normally and binds every field to its converted
value. -/
theorem collectFormArgs_ok (u : UnicodeDb) :
    ∀ fields : List (String × String),
      (∀ g ∈ fields, pyIsdigit u g.2 = true → g.2.toList.all u.isDecimalChar = true) →
      collectFormArgs u fields = Except.ok (fields.map (fun g =>
        (g.1, if pyIsdigit u g.2 then PyVal.pyInt (pyIntValue u g.2)
              else PyVal.pyStr g.2)))
  | [], _ => rfl
  | g :: rest, h => by
    have hrest := collectFormArgs_ok u rest (fun x hx => h x (List.mem_cons_of_mem _ hx))
    by_cases hd : pyIsdigit u g.2 = true
    · have hdec := h g (List.mem_cons_self _ _) hd
      have hne : g.2.isEmpty = false := pyIsdigit_isEmpty_false u g.2 hd
      have hconv : convertVal u g.2 = Except.ok (PyVal.pyInt (pyIntValue u g.2)) := by
        rw [convertVal, if_pos hd, pyIntOfString, if_pos (by rw [hne, hdec]; rfl)]
        rfl
      simp [collectFormArgs, hconv, hrest, hd]
    · have hconv : convertVal u g.2 = Except.ok (PyVal.pyStr g.2) := by
        rw [convertVal, if_neg hd]
      simp [collectFormArgs, hconv, hrest, hd]

/-- C10 counterexample: the field value "²" is a nonempty string that
consists entirely of digit characters (its isdigit test is true), yet the
program does not convert it to an integer and does not pass it through
unchanged either: int() raises ValueError, which aborts
_collect_form_args; and the non-ASCII decimal strings "٣" and "１２３"
are converted to the integers 3 and 123 rather than passed through as
strings. -/
theorem c10_collect_form_args_counterexample :
    pyIsdigit sampleDb "²" = true
    ∧ convertVal sampleDb "²" = Except.error "ValueError"
    ∧ collectFormArgs sampleDb [("n", "²")] = Except.error "ValueError"
    ∧ convertVal sampleDb "٣" = Except.ok (PyVal.pyInt 3)
    ∧ convertVal sampleDb "１２３" = Except.ok (PyVal.pyInt 123) :=
  ⟨rfl, rfl, rfl, rfl, rfl⟩

/-- C10 amended: _collect_form_args converts a field value to an integer
exactly when the value is nonempty and consists entirely of decimal digit
characters (Unicode category Nd, non-ASCII decimal digits included); a
nonempty value all of whose characters are digit characters but not all
decimal raises an uncaught ValueError that aborts the collection, so the
value is neither converted nor passed through; every other value — the
empty string, negative numbers, decimals, strings with signs or
whitespace — is passed to the plugin unchanged as a string. The database
hypothesis is the containment of the decimal digits in the digit
characters, which holds of the full Unicode database. -/
theorem c10_collect_form_args_decimal_conversion (u : UnicodeDb)
    (hsub : ∀ c, u.isDecimalChar c = true → u.isDigitChar c = true)
    (v : String) (fields : List (String × String))
    (hsafe : ∀ g ∈ fields, pyIsdigit u g.2 = true →
      g.2.toList.all u.isDecimalChar = true) :
    ((∃ k, convertVal u v = Except.ok (PyVal.pyInt k))
      ↔ (v ≠ "" ∧ v.toList.all u.isDecimalChar = true))
    ∧ (pyIsdigit u v = true → v.toList.all u.isDecimalChar = false →
        convertVal u v = Except.error "ValueError")
    ∧ (pyIsdigit u v = false → convertVal u v = Except.ok (PyVal.pyStr v))
    ∧ collectFormArgs u fields = Except.ok (fields.map (fun g =>
        (g.1, if pyIsdigit u g.2 then PyVal.pyInt (pyIntValue u g.2)
              else PyVal.pyStr g.2))) := by
  refine ⟨?_, ?_, ?_, collectFormArgs_ok u fields hsafe⟩
  · constructor
    · rintro ⟨k, hk⟩
      by_cases hd : pyIsdigit u v = true
      · rw [convertVal, if_pos hd, pyIntOfString] at hk
        by_cases hcond : (!v.isEmpty && v.toList.all u.isDecimalChar) = true
        · rw [Bool.and_eq_true, Bool.not_eq_true'] at hcond
          exact ⟨fun he => absurd (he ▸ hcond.1) (by decide), hcond.2⟩
        · rw [if_neg hcond] at hk
          simp [Except.map] at hk
      · rw [convertVal, if_neg hd] at hk
        simp at hk
    · rintro ⟨hne, hdec⟩
      have hie : v.isEmpty = false := by
        rcases h : v.isEmpty with _ | _
        · rfl
        · exact absurd (String.isEmpty_iff v |>.mp h) hne
      have hd : pyIsdigit u v = true := by
        rw [pyIsdigit, Bool.and_eq_true, Bool.not_eq_true']
        refine ⟨hie, ?_⟩
        rw [List.all_eq_true] at hdec ⊢
        exact fun c hc => hsub c (hdec c hc)
      refine ⟨pyIntValue u v, ?_⟩
      rw [convertVal, if_pos hd, pyIntOfString, if_pos (by rw [hie, hdec]; rfl)]
      rfl
  · intro hd hnd
    rw [convertVal, if_pos hd, pyIntOfString, if_neg (by rw [hnd]; simp)]
    rfl
  · intro hd
    rw [convertVal, if_neg (by simp [hd])]

/-- Witness for C10 amended over the sample database fragment: a form with
the values "-3" (passed through as a string) and "٣" (converted) collects
without raising. -/
theorem c10_collect_form_args_decimal_conversion_witness :
    (∀ c, sampleDb.isDecimalChar c = true → sampleDb.isDigitChar c = true)
    ∧ (∀ g ∈ [("n", "-3"), ("m", "٣")], pyIsdigit sampleDb g.2 = true →
        g.2.toList.all sampleDb.isDecimalChar = true)
    ∧ (((∃ k, convertVal sampleDb "-3" = Except.ok (PyVal.pyInt k))
          ↔ ("-3" ≠ "" ∧ "-3".toList.all sampleDb.isDecimalChar = true))
       ∧ (pyIsdigit sampleDb "-3" = true →
           "-3".toList.all sampleDb.isDecimalChar = false →
           convertVal sampleDb "-3" = Except.error "ValueError")
       ∧ (pyIsdigit sampleDb "-3" = false →
           convertVal sampleDb "-3" = Except.ok (PyVal.pyStr "-3"))
       ∧ collectFormArgs sampleDb [("n", "-3"), ("m", "٣")]
           = Except.ok ([("n", "-3"), ("m", "٣")].map (fun g =>
               (g.1, if pyIsdigit sampleDb g.2 then PyVal.pyInt (pyIntValue sampleDb g.2)
                     else PyVal.pyStr g.2)))) :=
  ⟨sampleDb_decimal_subset, by decide,
   c10_collect_form_args_decimal_conversion sampleDb sampleDb_decimal_subset "-3"
     [("n", "-3"), ("m", "٣")] (by decide)⟩

/-- C6: every created, modified or deleted filesystem event on a ".py" path
under the plugins directory makes the watcher enqueue one fs_change event,
and the UI-thread queue processor answers a dequeued fs_change event with a
full plugin reload. -/
theorem c6_watcher_hot_reload (pluginsDir path : String)
    (hsuf : ".py".toList <:+ path.toList)
    (hund : pluginsDir.toList <+: path.toList) :
    (∀ k, watcherEnqueue pluginsDir k path = [QEvent.fsChange path])
    ∧ UIAction.reloadAllPlugins ∈ processEvent (QEvent.fsChange path) := by
  have hpy : isPluginPy pluginsDir path = true := by
    unfold isPluginPy strEndsWith strContains
    rw [Bool.and_eq_true, decide_eq_true_eq, decide_eq_true_eq]
    exact ⟨hsuf, hund.isInfix⟩
  constructor
  · intro k
    cases k <;> simp [watcherEnqueue, hpy]
  · simp [processEvent]

/-- Witness for C6 at a concrete plugin source path. -/
theorem c6_watcher_hot_reload_witness :
    (".py".toList <:+ "/home/u/plugins/a/a.py".toList)
    ∧ ("/home/u/plugins".toList <+: "/home/u/plugins/a/a.py".toList)
    ∧ ((∀ k, watcherEnqueue "/home/u/plugins" k "/home/u/plugins/a/a.py"
          = [QEvent.fsChange "/home/u/plugins/a/a.py"])
       ∧ UIAction.reloadAllPlugins ∈ processEvent (QEvent.fsChange "/home/u/plugins/a/a.py")) :=
  ⟨by decide, by decide, c6_watcher_hot_reload _ _ (by decide) (by decide)⟩

/-- C4 counterexample: the parameter name "output_file" contains "file", so
the form gives it a file picker, yet in batch mode the base arguments of
_on_execute_folder_clicked bind it to the chosen output directory (the
dir/output test of core.py line 310 does not exclude names containing
"file"), and the per-file binding then leaves it bound to the output
directory — it is not the batch-iteration target. -/
theorem c4_substring_heuristic_counterexample :
    classifyParam "output_file" = WidgetKind.filePicker
    ∧ baseArgsFor ["output_file"] "outd" = [("output_file", "outd")]
    ∧ bindFirstFile (baseArgsFor ["output_file"] "outd") "in/a.pdf" ["output_file"]
        = [("output_file", "outd")] := by
  refine ⟨by decide, by decide, by decide⟩

/-- C4 amended: the form builder classifies a parameter purely by substring
tests on its name, "file" taking priority over "dir"/"output"; in batch
mode, however, the output directory is bound to every parameter whose name
contains "dir" or "output" — including names that also contain "file" — and
the iterated file path is bound to the first "file"-named parameter not
already bound by those base arguments. -/
theorem c4_substring_heuristic_amended (params : List String) (outdir p : String)
    (hp : p ∈ params) :
    (classifyParam p = WidgetKind.filePicker ↔ strContains (strToLower p) "file" = true)
    ∧ (classifyParam p = WidgetKind.dirPicker ↔
        (strContains (strToLower p) "file" = false
         ∧ (strContains (strToLower p) "dir" || strContains (strToLower p) "output") = true))
    ∧ (classifyParam p = WidgetKind.textEntry ↔
        (strContains (strToLower p) "file" = false
         ∧ (strContains (strToLower p) "dir" || strContains (strToLower p) "output") = false))
    ∧ ((p, outdir) ∈ baseArgsFor params outdir ↔
        (strContains (strToLower p) "dir" || strContains (strToLower p) "output") = true)
    ∧ (∀ base fpath, bindFirstFile base fpath params =
        match firstEligible params base with
        | none => base
        | some q => base ++ [(q, fpath)]) := by
  refine ⟨?_, ?_, ?_, ?_, fun base fpath => bindFirstFile_eq base fpath params⟩
  · unfold classifyParam
    rcases h1 : strContains (strToLower p) "file" with _ | _ <;>
      rcases h2 : (strContains (strToLower p) "dir" || strContains (strToLower p) "output")
        with _ | _ <;> decide
  · unfold classifyParam
    rcases h1 : strContains (strToLower p) "file" with _ | _ <;>
      rcases h2 : (strContains (strToLower p) "dir" || strContains (strToLower p) "output")
        with _ | _ <;> decide
  · unfold classifyParam
    rcases h1 : strContains (strToLower p) "file" with _ | _ <;>
      rcases h2 : (strContains (strToLower p) "dir" || strContains (strToLower p) "output")
        with _ | _ <;> decide
  · constructor
    · intro hmem
      rcases List.mem_filterMap.mp hmem with ⟨q, _, hq⟩
      by_cases hc : (strContains (strToLower q) "dir" || strContains (strToLower q) "output")
          = true
      · rw [if_pos hc] at hq
        cases hq
        exact hc
      · rw [if_neg hc] at hq
        cases hq
    · intro hc
      exact List.mem_filterMap.mpr ⟨p, hp, by rw [if_pos hc]⟩

/-- Witness for C4 amended at the parameter "output_file". -/
theorem c4_substring_heuristic_amended_witness :
    "output_file" ∈ ["output_file"]
    ∧ ((classifyParam "output_file" = WidgetKind.filePicker
          ↔ strContains (strToLower "output_file") "file" = true)
       ∧ (classifyParam "output_file" = WidgetKind.dirPicker ↔
           (strContains (strToLower "output_file") "file" = false
            ∧ (strContains (strToLower "output_file") "dir"
               || strContains (strToLower "output_file") "output") = true))
       ∧ (classifyParam "output_file" = WidgetKind.textEntry ↔
           (strContains (strToLower "output_file") "file" = false
            ∧ (strContains (strToLower "output_file") "dir"
               || strContains (strToLower "output_file") "output") = false))
       ∧ (("output_file", "o") ∈ baseArgsFor ["output_file"] "o" ↔
           (strContains (strToLower "output_file") "dir"
            || strContains (strToLower "output_file") "output") = true)
       ∧ (∀ base fpath, bindFirstFile base fpath ["output_file"] =
           match firstEligible ["output_file"] base with
           | none => base
           | some q => base ++ [(q, fpath)])) :=
  ⟨by decide, c4_substring_heuristic_amended ["output_file"] "o" "output_file" (by decide)⟩

/-- C9: in batch mode the file path is bound only to the first parameter in
signature order whose name contains "file" and that the base arguments do
not already bind; every other such parameter stays unbound, and in
particular the main of juntar_texto (input_file1, input_file2, output_dir)
is always called with input_file2 missing. -/
theorem c9_batch_binds_only_first_file (params : List String) (base : Args)
    (fpath q : String) (_hq : q ∈ params)
    (_hqf : strContains (strToLower q) "file" = true)
    (hqb : argsHasKey base q = false)
    (hqne : firstEligible params base ≠ some q) :
    (bindFirstFile base fpath params =
      match firstEligible params base with
      | none => base
      | some p => base ++ [(p, fpath)])
    ∧ (bindFirstFile base fpath params).lookup q = none
    ∧ (∀ outdir fp,
        bindFirstFile (baseArgsFor juntarTextoParams outdir) fp juntarTextoParams
          = [("output_dir", outdir), ("input_file1", fp)]
        ∧ (bindFirstFile (baseArgsFor juntarTextoParams outdir) fp juntarTextoParams).lookup
            "input_file2" = none) := by
  have hbase : base.lookup q = none := by
    cases hl : base.lookup q with
    | none => rfl
    | some v =>
      unfold argsHasKey at hqb
      rw [hl] at hqb
      simp at hqb
  refine ⟨bindFirstFile_eq base fpath params, ?_, ?_⟩
  · rw [bindFirstFile_eq base fpath params]
    cases hfe : firstEligible params base with
    | none => exact hbase
    | some p =>
      have hpq : ¬q = p := by
        intro he
        subst he
        exact hqne hfe
      rw [lookup_append_single q p fpath base hbase, if_neg hpq]
  · intro outdir fp
    exact ⟨rfl, rfl⟩

/-- Witness for C9 at the juntar_texto signature: input_file2 is eligible
by name yet not the first eligible parameter, and stays unbound. -/
theorem c9_batch_binds_only_first_file_witness :
    "input_file2" ∈ juntarTextoParams
    ∧ strContains (strToLower "input_file2") "file" = true
    ∧ argsHasKey (baseArgsFor juntarTextoParams "od") "input_file2" = false
    ∧ firstEligible juntarTextoParams (baseArgsFor juntarTextoParams "od") ≠ some "input_file2"
    ∧ ((bindFirstFile (baseArgsFor juntarTextoParams "od") "in/x.pdf" juntarTextoParams =
         match firstEligible juntarTextoParams (baseArgsFor juntarTextoParams "od") with
         | none => baseArgsFor juntarTextoParams "od"
         | some p => baseArgsFor juntarTextoParams "od" ++ [(p, "in/x.pdf")])
       ∧ (bindFirstFile (baseArgsFor juntarTextoParams "od") "in/x.pdf"
            juntarTextoParams).lookup "input_file2" = none
       ∧ (∀ outdir fp,
           bindFirstFile (baseArgsFor juntarTextoParams outdir) fp juntarTextoParams
             = [("output_dir", outdir), ("input_file1", fp)]
           ∧ (bindFirstFile (baseArgsFor juntarTextoParams outdir) fp
                juntarTextoParams).lookup "input_file2" = none)) :=
  ⟨by decide, by decide, by decide, by decide,
   c9_batch_binds_only_first_file juntarTextoParams (baseArgsFor juntarTextoParams "od")
     "in/x.pdf" "input_file2" (by decide) (by decide) (by decide) (by decide)⟩

/-- The call-argument dict the batch loop builds for one folder entry: the
base arguments with the entry's path bound to the first eligible file
parameter (core.py lines 343-352). -/
def callArgsFor (params : List String) (folder : String) (base : Args) (e : Entry) : Args :=
  bindFirstFile base (folder ++ "/" ++ e.name) params

/-- The batch loop performs one invocation per regular file, in list order,
with the per-entry call arguments. -/
theorem folderLoop_invocations (run : PluginRun) (params : List String) (folder : String)
    (base : Args) (total : Nat) (l : List Entry) :
    ∀ p : Nat,
      (folderLoop run params folder base total l p).invocations
        = (l.filter (fun e => e.isFile)).map (callArgsFor params folder base) := by
  induction l with
  | nil => intro p; rfl
  | cons e rest ih =>
    intro p
    rcases hf : e.isFile with _ | _
    · simp [folderLoop, hf, ih, List.filter_cons]
    · cases hr : run (bindFirstFile base (folder ++ "/" ++ e.name) params) with
      | ok u => simp [folderLoop, hf, hr, ih, callArgsFor, List.filter_cons]
      | error err => simp [folderLoop, hf, hr, ih, callArgsFor, List.filter_cons]

/-- The success counter of the batch loop counts exactly the regular files
whose invocation returned without raising. -/
theorem folderLoop_processed (run : PluginRun) (params : List String) (folder : String)
    (base : Args) (total : Nat) (l : List Entry) :
    ∀ p : Nat,
      (folderLoop run params folder base total l p).processed
        = p + l.countP (fun e =>
            exceptOk (run (callArgsFor params folder base e)) && e.isFile) := by
  induction l with
  | nil => intro p; rfl
  | cons e rest ih =>
    intro p
    rcases hf : e.isFile with _ | _
    · simp [folderLoop, hf, ih, List.countP_cons]
    · cases hr : run (bindFirstFile base (folder ++ "/" ++ e.name) params) with
      | ok u =>
        simp [folderLoop, hf, hr, ih, callArgsFor, List.countP_cons, exceptOk]
        omega
      | error err =>
        simp [folderLoop, hf, hr, ih, callArgsFor, List.countP_cons, exceptOk]

/-- The batch loop never emits an error event; failures produce log events
only. -/
theorem folderLoop_no_error (run : PluginRun) (params : List String) (folder : String)
    (base : Args) (total : Nat) (l : List Entry) :
    ∀ (p : Nat) (m : String),
      QEvent.errorMsg m ∉ (folderLoop run params folder base total l p).events := by
  induction l with
  | nil => intro p m h; exact absurd h (List.not_mem_nil _)
  | cons e rest ih =>
    intro p m
    rcases hf : e.isFile with _ | _
    · simp only [folderLoop, hf, Bool.false_eq_true, if_false]
      exact ih p m
    · cases hr : run (bindFirstFile base (folder ++ "/" ++ e.name) params) with
      | ok u =>
        simp only [folderLoop, hf, if_true, hr]
        intro h
        rcases List.mem_cons.mp h with h1 | h2
        · cases h1
        · exact ih (p + 1) m h2
      | error err =>
        simp only [folderLoop, hf, if_true, hr]
        intro h
        rcases List.mem_cons.mp h with h1 | h2
        · cases h1
        · exact ih p m h2

/-- Every failing invocation of the batch loop is logged with the file name
and the exception text. -/
theorem folderLoop_failure_logged (run : PluginRun) (params : List String) (folder : String)
    (base : Args) (total : Nat) (l : List Entry) :
    ∀ (p : Nat) (e : Entry) (err : String), e ∈ l → e.isFile = true →
      run (callArgsFor params folder base e) = Except.error err →
      QEvent.logMsg ("Erro em " ++ e.name ++ ": " ++ err)
        ∈ (folderLoop run params folder base total l p).events := by
  induction l with
  | nil => intro p e err hmem; exact absurd hmem (List.not_mem_nil _)
  | cons a rest ih =>
    intro p e err hmem hfile hrun
    rcases List.mem_cons.mp hmem with h1 | h2
    · subst h1
      simp only [folderLoop, hfile, if_true]
      rw [callArgsFor] at hrun
      rw [hrun]
      exact List.mem_cons_self _ _
    · rcases hf : a.isFile with _ | _
      · simp only [folderLoop, hf, Bool.false_eq_true, if_false]
        exact ih p e err h2 hfile hrun
      · cases hr : run (bindFirstFile base (folder ++ "/" ++ a.name) params) with
        | ok u =>
          simp only [folderLoop, hf, if_true, hr]
          exact List.mem_cons_of_mem _ (ih (p + 1) e err h2 hfile hrun)
        | error e2 =>
          simp only [folderLoop, hf, if_true, hr]
          exact List.mem_cons_of_mem _ (ih p e err h2 hfile hrun)

/-- The full batch runner emits no error event at all, so nothing it
enqueues makes the event processor show a message box. -/
theorem runPluginOnFolder_no_error (run : PluginRun) (params : List String)
    (pid folder : String) (entries : List Entry) (base : Args) (m : String) :
    QEvent.errorMsg m ∉ (runPluginOnFolder run params pid folder entries base).events := by
  intro h
  simp only [runPluginOnFolder] at h
  rcases List.mem_cons.mp h with h1 | h2
  · cases h1
  · rcases List.mem_append.mp h2 with h3 | h4
    · exact folderLoop_no_error run params folder base _ _ _ m h3
    · simp at h4

/-- C1: for every input folder, the batch runner invokes the plugin once per
regular file of the folder, skipping non-file entries and following sorted
filename order, and its final report carries a success count equal to the
number of invocations that returned without raising, together with the
total number of directory entries. -/
theorem c1_batch_runner_report (run : PluginRun) (params : List String)
    (pid folder : String) (entries : List Entry) (base : Args) :
    List.Sorted entryLE (sortEntries entries)
    ∧ (runPluginOnFolder run params pid folder entries base).invocations
        = ((sortEntries entries).filter (fun e => e.isFile)).map
            (callArgsFor params folder base)
    ∧ (runPluginOnFolder run params pid folder entries base).processed
        = (runPluginOnFolder run params pid folder entries base).invocations.countP
            (fun a => exceptOk (run a))
    ∧ (runPluginOnFolder run params pid folder entries base).total = entries.length
    ∧ (runPluginOnFolder run params pid folder entries base).events.getLast?
        = some (QEvent.logMsg ("Execução em pasta finalizada. "
            ++ toString (runPluginOnFolder run params pid folder entries base).processed
            ++ "/" ++ toString (runPluginOnFolder run params pid folder entries base).total
            ++ " arquivos processados.")) := by
  refine ⟨List.sorted_insertionSort entryLE entries, ?_, ?_, ?_, ?_⟩
  · simp only [runPluginOnFolder]
    exact folderLoop_invocations run params folder base _ _ 0
  · simp only [runPluginOnFolder]
    rw [folderLoop_invocations run params folder base _ _ 0,
      folderLoop_processed run params folder base _ _ 0,
      List.countP_map, List.countP_filter, Nat.zero_add]
    simp only [Function.comp]
  · simp only [runPluginOnFolder]
    exact (List.perm_insertionSort entryLE entries).length_eq
  · simp only [runPluginOnFolder, ← List.cons_append]
    rw [List.getLast?_concat]

/-- A plugin run that always raises, used as the concrete failing input for
the batch error-surfacing claim. -/
def alwaysRaise : PluginRun := fun _ => Except.error "boom"

/-- Boolean test that a queue event is an error event. -/
def isErrorEvent : QEvent → Bool
  | QEvent.errorMsg _ => true
  | _ => false

/-- Boolean test that a UI action is a message box. -/
def isMsgBoxAction : UIAction → Bool
  | UIAction.showMessageBox _ _ => true
  | _ => false

/-- C2 counterexample: a batch run over one file whose plugin invocation
raises performs the invocation (which raises), yet the batch runner emits no
error event, so the event processor never shows a message box for it — the
exception is logged only, contradicting the claim that batch-mode
exceptions are surfaced via a message box. -/
theorem c2_counterexample :
    exceptOk (alwaysRaise (bindFirstFile [] "in/a.pdf" ["input_file"])) = false
    ∧ (runPluginOnFolder alwaysRaise ["input_file"] "p" "in"
        [{ name := "a.pdf", isFile := true }] []).invocations.length = 1
    ∧ ((runPluginOnFolder alwaysRaise ["input_file"] "p" "in"
        [{ name := "a.pdf", isFile := true }] []).events.filter isErrorEvent) = []
    ∧ (((runPluginOnFolder alwaysRaise ["input_file"] "p" "in"
        [{ name := "a.pdf", isFile := true }] []).events.map processEvent).flatten.filter
          isMsgBoxAction) = [] :=
  ⟨rfl, rfl, rfl, rfl⟩

/-- C2 amended: every exception from a plugin invocation is caught and a
message is logged to the UI log panel; a single run additionally surfaces
the error via a message box; a batch run logs the per-file failure, shows
no message box, and continues with the next file; there is no retry. -/
theorem c2_amended_exception_handling (run : PluginRun) (pid : String) (args : Args)
    (e : String) (params : List String) (pid2 folder : String) (entries : List Entry)
    (base : Args) (h : run args = Except.error e) :
    runPluginThread run pid args
      = [QEvent.logMsg ("Iniciando plugin " ++ pid ++ " ..."),
         QEvent.logMsg ("Erro ao executar " ++ pid ++ ": " ++ e),
         QEvent.errorMsg ("Erro ao executar " ++ pid ++ ": " ++ e)]
    ∧ processEvent (QEvent.errorMsg ("Erro ao executar " ++ pid ++ ": " ++ e))
        = [UIAction.showMessageBox "Erro" ("Erro ao executar " ++ pid ++ ": " ++ e)]
    ∧ (∀ m, QEvent.errorMsg m ∉ (runPluginOnFolder run params pid2 folder entries base).events)
    ∧ (runPluginOnFolder run params pid2 folder entries base).invocations.length
        = ((sortEntries entries).filter (fun en => en.isFile)).length
    ∧ (∀ en ∈ sortEntries entries, en.isFile = true →
        ∀ err, run (callArgsFor params folder base en) = Except.error err →
          QEvent.logMsg ("Erro em " ++ en.name ++ ": " ++ err)
            ∈ (runPluginOnFolder run params pid2 folder entries base).events) := by
  refine ⟨by simp [runPluginThread, h], rfl, ?_, ?_, ?_⟩
  · intro m
    exact runPluginOnFolder_no_error run params pid2 folder entries base m
  · simp only [runPluginOnFolder]
    rw [folderLoop_invocations run params folder base _ _ 0, List.length_map]
  · intro en hen hfile err hrun
    simp only [runPluginOnFolder]
    refine List.mem_cons_of_mem _ (List.mem_append_left _ ?_)
    exact folderLoop_failure_logged run params folder base _ _ 0 en err hen hfile hrun

/-- Witness for C2 amended: a plugin that raises, run singly with empty
arguments and in batch over a one-file folder. -/
theorem c2_amended_exception_handling_witness :
    alwaysRaise [] = Except.error "boom"
    ∧ (runPluginThread alwaysRaise "p" []
        = [QEvent.logMsg ("Iniciando plugin " ++ "p" ++ " ..."),
           QEvent.logMsg ("Erro ao executar " ++ "p" ++ ": " ++ "boom"),
           QEvent.errorMsg ("Erro ao executar " ++ "p" ++ ": " ++ "boom")]
       ∧ processEvent (QEvent.errorMsg ("Erro ao executar " ++ "p" ++ ": " ++ "boom"))
           = [UIAction.showMessageBox "Erro" ("Erro ao executar " ++ "p" ++ ": " ++ "boom")]
       ∧ (∀ m, QEvent.errorMsg m ∉ (runPluginOnFolder alwaysRaise ["input_file"] "p" "in"
            [{ name := "a.pdf", isFile := true }] []).events)
       ∧ (runPluginOnFolder alwaysRaise ["input_file"] "p" "in"
            [{ name := "a.pdf", isFile := true }] []).invocations.length
           = ((sortEntries [{ name := "a.pdf", isFile := true }]).filter
               (fun en => en.isFile)).length
       ∧ (∀ en ∈ sortEntries [{ name := "a.pdf", isFile := true }], en.isFile = true →
           ∀ err, alwaysRaise (callArgsFor ["input_file"] "in" [] en) = Except.error err →
             QEvent.logMsg ("Erro em " ++ en.name ++ ": " ++ err)
               ∈ (runPluginOnFolder alwaysRaise ["input_file"] "p" "in"
                   [{ name := "a.pdf", isFile := true }] []).events)) :=
  ⟨rfl, c2_amended_exception_handling alwaysRaise "p" [] "boom" ["input_file"] "p" "in"
    [{ name := "a.pdf", isFile := true }] [] rfl⟩

/-- The log line that processing one discovered directory appends, chosen
by the import outcome of its module. -/
def logLineFor (env : ImportEnv) (n : String) : String :=
  match env n with
  | none => "[PluginManager] Erro ao carregar " ++ n
  | some m =>
    if m.hasMain && m.mainCallable then "[PluginManager] Carregado: " ++ n
    else "[PluginManager] Ignorado (sem main): " ++ n

/-- Characterization of the new_meta map built by the loading loop: an id is
entered exactly when it is among the processed names and its module imports
with a callable main; every other id keeps its initial entry. -/
theorem foldl_loadOne_newMeta (env : ImportEnv) (n : String) :
    ∀ (found : List String) (init : LoadStep),
      ((found.foldl (loadOne env) init).newMeta n)
        = match env n with
          | some m =>
            if n ∈ found ∧ (m.hasMain && m.mainCallable) = true then some (mkMeta n m)
            else init.newMeta n
          | none => init.newMeta n
  | [], init => by
    cases hm : env n <;> simp [hm]
  | a :: found, init => by
    rw [List.foldl_cons, foldl_loadOne_newMeta env n found (loadOne env init a)]
    by_cases hna : n = a
    · subst hna
      cases hm : env n with
      | none => simp [loadOne, hm]
      | some m =>
        rcases hf : (m.hasMain && m.mainCallable) with _ | _
        · simp [loadOne, hm, hf]
        · simp [loadOne, hm, hf, mapUpdate]
    · cases hm : env n with
      | none =>
        cases hma : env a with
        | none => simp [loadOne, hma, hm]
        | some ma =>
          rcases hfa : (ma.hasMain && ma.mainCallable) with _ | _
          · simp [loadOne, hma, hfa, hm]
          · simp [loadOne, hma, hfa, hm, mapUpdate, hna]
      | some m =>
        cases hma : env a with
        | none => simp [loadOne, hma, hm, List.mem_cons, hna]
        | some ma =>
          rcases hfa : (ma.hasMain && ma.mainCallable) with _ | _
          · simp [loadOne, hma, hfa, hm, List.mem_cons, hna]
          · simp [loadOne, hma, hfa, hm, mapUpdate, List.mem_cons, hna]

/-- Characterization of the modules map after the loading loop: an id whose
module imports with a callable main is (re)bound to that module; every
other id keeps its initial binding. -/
theorem foldl_loadOne_modules (env : ImportEnv) (n : String) :
    ∀ (found : List String) (init : LoadStep),
      ((found.foldl (loadOne env) init).modules n)
        = match env n with
          | some m =>
            if n ∈ found ∧ (m.hasMain && m.mainCallable) = true then some m
            else init.modules n
          | none => init.modules n
  | [], init => by
    cases hm : env n <;> simp [hm]
  | a :: found, init => by
    rw [List.foldl_cons, foldl_loadOne_modules env n found (loadOne env init a)]
    by_cases hna : n = a
    · subst hna
      cases hm : env n with
      | none => simp [loadOne, hm]
      | some m =>
        rcases hf : (m.hasMain && m.mainCallable) with _ | _
        · simp [loadOne, hm, hf]
        · simp [loadOne, hm, hf, mapUpdate]
    · cases hm : env n with
      | none =>
        cases hma : env a with
        | none => simp [loadOne, hma, hm]
        | some ma =>
          rcases hfa : (ma.hasMain && ma.mainCallable) with _ | _
          · simp [loadOne, hma, hfa, hm]
          · simp [loadOne, hma, hfa, hm, mapUpdate, hna]
      | some m =>
        cases hma : env a with
        | none => simp [loadOne, hma, hm, List.mem_cons, hna]
        | some ma =>
          rcases hfa : (ma.hasMain && ma.mainCallable) with _ | _
          · simp [loadOne, hma, hfa, hm, List.mem_cons, hna]
          · simp [loadOne, hma, hfa, hm, mapUpdate, List.mem_cons, hna]

/-- The loading loop only appends log lines. -/
theorem foldl_loadOne_logs_le (env : ImportEnv) :
    ∀ (found : List String) (init : LoadStep),
      init.logs <+: (found.foldl (loadOne env) init).logs
  | [], _ => List.prefix_refl _
  | a :: found, init => by
    rw [List.foldl_cons]
    have hstep : init.logs <+: (loadOne env init a).logs := by
      cases hma : env a with
      | none => simp [loadOne, hma]
      | some ma =>
        rcases hfa : (ma.hasMain && ma.mainCallable) with _ | _ <;> simp [loadOne, hma, hfa]
    exact hstep.trans (foldl_loadOne_logs_le env found (loadOne env init a))

/-- Every processed directory name leaves its log line in the loop's log. -/
theorem foldl_loadOne_log_mem (env : ImportEnv) (n : String) :
    ∀ (found : List String) (init : LoadStep), n ∈ found →
      logLineFor env n ∈ (found.foldl (loadOne env) init).logs
  | a :: found, init, hmem => by
    rw [List.foldl_cons]
    rcases List.mem_cons.mp hmem with h1 | h2
    · subst h1
      refine (foldl_loadOne_logs_le env found (loadOne env init n)).subset ?_
      cases hm : env n with
      | none => simp [loadOne, hm, logLineFor]
      | some m =>
        rcases hf : (m.hasMain && m.mainCallable) with _ | _ <;>
          simp [loadOne, hm, hf, logLineFor]
    · exact foldl_loadOne_log_mem env n found (loadOne env init a) h2

/-- The meta registry after load_all, characterized per id. -/
theorem loadAll_meta_eq (listing : List FsDirEntry) (env : ImportEnv) (st : PMState)
    (k : String) :
    (loadAll listing env st).state.meta k
      = match env k with
        | some m =>
          if k ∈ discover listing ∧ (m.hasMain && m.mainCallable) = true
          then some (mkMeta k m) else none
        | none => none := by
  simp only [loadAll]
  rw [foldl_loadOne_newMeta env k (discover listing)]

/-- Registration after load_all holds exactly for qualifying ids. -/
theorem loadAll_meta_isSome_iff (listing : List FsDirEntry) (env : ImportEnv) (st : PMState)
    (k : String) :
    (((loadAll listing env st).state.meta k).isSome = true) ↔ qualifies listing env k := by
  rw [loadAll_meta_eq]
  unfold qualifies
  cases hm : env k with
  | none => simp
  | some m =>
    dsimp only
    by_cases hin : k ∈ discover listing
    · rcases hf : (m.hasMain && m.mainCallable) with _ | _
      · rw [if_neg (by simp)]
        simp only [Option.isSome_none, Bool.false_eq_true, false_iff]
        rintro ⟨_, m2, hm2, h3, h4⟩
        cases hm2
        rw [h3, h4] at hf
        cases hf
      · rw [if_pos ⟨hin, rfl⟩]
        rw [Bool.and_eq_true] at hf
        simp [hin, hf.1, hf.2]
    · rw [if_neg (fun hc => hin hc.1)]
      simp [hin]

/-- C3: after every call to load_all the registry reflects the current
directory contents: an id is registered exactly when its directory is
discovered with a module file named after it and the module imports with a
callable main; a previously registered id that no longer qualifies is
removed from both the meta and the modules registries. -/
theorem c3_registry_reflects_directory (listing : List FsDirEntry) (env : ImportEnv)
    (st : PMState) (n : String) (hprev : (st.meta n).isSome = true)
    (hnq : ¬qualifies listing env n) :
    (∀ k, (((loadAll listing env st).state.meta k).isSome = true) ↔ qualifies listing env k)
    ∧ (loadAll listing env st).state.meta n = none
    ∧ (loadAll listing env st).state.modules n = none := by
  have hnone : (loadAll listing env st).state.meta n = none := by
    cases hv : (loadAll listing env st).state.meta n with
    | none => rfl
    | some m =>
      exact absurd ((loadAll_meta_isSome_iff listing env st n).mp (by rw [hv]; rfl)) hnq
  refine ⟨fun k => loadAll_meta_isSome_iff listing env st k, hnone, ?_⟩
  have h2 := hnone
  simp only [loadAll] at h2 ⊢
  rw [h2, hprev]
  simp

/-- Witness material for the registry claims: a module with a callable main
and default metadata attributes. -/
def sampleModule : PyModule :=
  { hasMain := true, mainCallable := true, pluginNameAttr := none,
    pluginCategoryAttr := none, pluginDescriptionAttr := none,
    pluginIconAttr := none, docString := none }

/-- A registry state holding the previously loaded plugin directory "old". -/
def sampleState : PMState :=
  { modules := fun k => if k = "old" then some sampleModule else none,
    meta := fun k => if k = "old" then some (mkMeta "old" sampleModule) else none }

/-- Witness for C3: reloading over an empty plugins directory removes the
previously registered plugin "old" from both registries. -/
theorem c3_registry_reflects_directory_witness :
    ((sampleState.meta "old").isSome = true)
    ∧ ¬qualifies [] (fun _ => none) "old"
    ∧ ((∀ k, (((loadAll [] (fun _ => none) sampleState).state.meta k).isSome = true)
          ↔ qualifies [] (fun _ => none) k)
       ∧ (loadAll [] (fun _ => none) sampleState).state.meta "old" = none
       ∧ (loadAll [] (fun _ => none) sampleState).state.modules "old" = none) :=
  ⟨rfl, by simp [qualifies, discover],
   c3_registry_reflects_directory [] (fun _ => none) sampleState "old" rfl
     (by simp [qualifies, discover])⟩

/-- C5: a discovered plugin directory is registered exactly when its
module imports successfully and exposes a callable attribute main; a directory
whose import raises or whose module lacks a callable main is excluded from
the registry, and the event is logged (load_all returns normally in every
case rather than raising). -/
theorem c5_registration_iff_callable_main (listing : List FsDirEntry) (env : ImportEnv)
    (st : PMState) (n : String) (hn : n ∈ discover listing) :
    (((loadAll listing env st).state.meta n).isSome = true
      ↔ ∃ m, env n = some m ∧ m.hasMain = true ∧ m.mainCallable = true)
    ∧ logLineFor env n ∈ (loadAll listing env st).logs
    ∧ (env n = none → (loadAll listing env st).state.meta n = none
        ∧ logLineFor env n = "[PluginManager] Erro ao carregar " ++ n)
    ∧ (∀ m, env n = some m → (m.hasMain && m.mainCallable) = false →
        (loadAll listing env st).state.meta n = none
        ∧ logLineFor env n = "[PluginManager] Ignorado (sem main): " ++ n) := by
  refine ⟨?_, ?_, ?_, ?_⟩
  · rw [loadAll_meta_isSome_iff]
    unfold qualifies
    simp [hn]
  · simp only [loadAll]
    exact foldl_loadOne_log_mem env n (discover listing) _ hn
  · intro hnone
    refine ⟨?_, by simp [logLineFor, hnone]⟩
    rw [loadAll_meta_eq, hnone]
  · intro m hm hf
    refine ⟨?_, by simp [logLineFor, hm, hf]⟩
    rw [loadAll_meta_eq, hm]
    dsimp only
    rw [if_neg (by simp [hf])]

/-- A module lacking a callable main, for the C5 witness. -/
def moduleNoMain : PyModule :=
  { hasMain := false, mainCallable := false, pluginNameAttr := none,
    pluginCategoryAttr := none, pluginDescriptionAttr := none,
    pluginIconAttr := none, docString := none }

/-- Witness for C5: a discovered directory "p1" whose module has no main is
excluded from the registry and the event is logged. -/
theorem c5_registration_iff_callable_main_witness :
    "p1" ∈ discover [{ name := "p1", isSubdir := true, hasModuleFile := true }]
    ∧ (((((loadAll [{ name := "p1", isSubdir := true, hasModuleFile := true }]
            (fun k => if k = "p1" then some moduleNoMain else none)
            sampleState).state.meta "p1").isSome = true)
          ↔ ∃ m, (fun k => if k = "p1" then some moduleNoMain else none) "p1" = some m
              ∧ m.hasMain = true ∧ m.mainCallable = true)
       ∧ logLineFor (fun k => if k = "p1" then some moduleNoMain else none) "p1"
           ∈ (loadAll [{ name := "p1", isSubdir := true, hasModuleFile := true }]
               (fun k => if k = "p1" then some moduleNoMain else none) sampleState).logs
       ∧ ((fun k => if k = "p1" then some moduleNoMain else none) "p1" = none →
           (loadAll [{ name := "p1", isSubdir := true, hasModuleFile := true }]
               (fun k => if k = "p1" then some moduleNoMain else none)
               sampleState).state.meta "p1" = none
           ∧ logLineFor (fun k => if k = "p1" then some moduleNoMain else none) "p1"
               = "[PluginManager] Erro ao carregar " ++ "p1")
       ∧ (∀ m, (fun k => if k = "p1" then some moduleNoMain else none) "p1" = some m →
           (m.hasMain && m.mainCallable) = false →
           (loadAll [{ name := "p1", isSubdir := true, hasModuleFile := true }]
               (fun k => if k = "p1" then some moduleNoMain else none)
               sampleState).state.meta "p1" = none
           ∧ logLineFor (fun k => if k = "p1" then some moduleNoMain else none) "p1"
               = "[PluginManager] Ignorado (sem main): " ++ "p1")) :=
  ⟨by decide,
   c5_registration_iff_callable_main
     [{ name := "p1", isSubdir := true, hasModuleFile := true }]
     (fun k => if k = "p1" then some moduleNoMain else none) sampleState "p1" (by decide)⟩

/-- The chunk-start loop is empty once the start has reached the stop. -/
theorem pyRange3_stop (start stop step : Nat) (h : stop ≤ start) :
    pyRange3 start stop step = [] := by
  rw [pyRange3]
  split_ifs with h1 h2
  · exact absurd h2 (by omega)
  · rfl
  · rfl

/-- One unfolding step of the chunk-start loop. -/
theorem pyRange3_step (start stop step : Nat) (hs : 0 < step) (hlt : start < stop) :
    pyRange3 start stop step = start :: pyRange3 (start + step) stop step := by
  rw [pyRange3, dif_pos hs, dif_pos hlt]

/-- Closed form of the chunk-start loop: an arithmetic progression with
ceil((stop - s) / c) terms. -/
theorem pyRange3_eq_map (c : Nat) (hc : 0 < c) :
    ∀ (k s stop : Nat), stop - s ≤ k →
      pyRange3 s stop c = (List.range ((stop - s + c - 1) / c)).map (fun i => s + i * c)
  | 0, s, stop, hk => by
    have hss : stop ≤ s := by omega
    rw [pyRange3_stop s stop c hss]
    have hz : (stop - s + c - 1) / c = 0 := by
      have h1 : stop - s = 0 := by omega
      rw [h1]
      exact Nat.div_eq_of_lt (by omega)
    rw [hz]
    rfl
  | k + 1, s, stop, hk => by
    by_cases hlt : s < stop
    · rw [pyRange3_step s stop c hc hlt,
        pyRange3_eq_map c hc k (s + c) stop (by omega)]
      have harith : (stop - s + c - 1) / c = (stop - (s + c) + c - 1) / c + 1 := by
        have hd : 1 ≤ stop - s := by omega
        have e1 : stop - s + c - 1 = (stop - s - 1) + c := by omega
        rw [e1, Nat.add_div_right _ hc]
        rcases Nat.le_total c (stop - s) with hcd | hdc
        · have e2 : stop - (s + c) + c - 1 = stop - s - 1 := by omega
          rw [e2]
        · have e2 : stop - (s + c) = 0 := by omega
          rw [e2]
          have e3 : (0 + c - 1) / c = 0 := Nat.div_eq_of_lt (by omega)
          have e4 : (stop - s - 1) / c = 0 := Nat.div_eq_of_lt (by omega)
          rw [e3, e4]
      rw [harith, List.range_succ_eq_map, List.map_cons, List.map_map]
      congr 1
      · omega
      · apply List.map_congr_left
        intro a _
        simp only [Function.comp]
        rw [Nat.succ_mul]
        generalize a * c = B
        omega
    · have hss : stop ≤ s := by omega
      rw [pyRange3_stop s stop c hss]
      have hz : (stop - s + c - 1) / c = 0 := by
        have h1 : stop - s = 0 := by omega
        rw [h1]
        exact Nat.div_eq_of_lt (by omega)
      rw [hz]
      rfl

/-- Concatenating the page slices taken at the chunk starts reproduces the
page list from the given start on. -/
theorem pyRange3_slices_flatten {α : Type} (pages : List α) (c : Nat) (hc : 0 < c) :
    ∀ (k s : Nat), pages.length - s ≤ k →
      ((pyRange3 s pages.length c).map (fun start =>
          (pages.drop start).take (min (start + c) pages.length - start))).flatten
        = pages.drop s
  | 0, s, hk => by
    have hss : pages.length ≤ s := by omega
    rw [pyRange3_stop s pages.length c hss, List.drop_eq_nil_of_le hss]
    rfl
  | k + 1, s, hk => by
    by_cases hlt : s < pages.length
    · rw [pyRange3_step s pages.length c hc hlt, List.map_cons, List.flatten_cons,
        pyRange3_slices_flatten pages c hc k (s + c) (by omega)]
      rcases Nat.le_total (s + c) pages.length with hle | hge
      · have e1 : min (s + c) pages.length - s = c := by
          rw [min_eq_left hle]
          omega
        rw [e1]
        have e2 : pages.drop (s + c) = (pages.drop s).drop c := (List.drop_drop c s pages).symm
        rw [e2, List.take_append_drop]
      · have e1 : min (s + c) pages.length - s = pages.length - s := by
          rw [min_eq_right hge]
        rw [e1]
        have e2 : pages.drop (s + c) = [] := List.drop_eq_nil_of_le (by omega)
        rw [e2, List.append_nil]
        apply List.take_of_length_le
        rw [List.length_drop]
    · have hss : pages.length ≤ s := by omega
      rw [pyRange3_stop s pages.length c hss, List.drop_eq_nil_of_le hss]
      rfl

/-- Closed form of the cortar_pdf output: one entry per chunk index, with
the one-based part name and the corresponding page slice. -/
theorem cortarPdfMain_eq_map {α : Type} (pages : List α) (outputDir : String)
    (chunkSize : Nat) (hc : 1 ≤ chunkSize) :
    cortarPdfMain pages outputDir chunkSize
      = (List.range ((pages.length + chunkSize - 1) / chunkSize)).map
          (fun i => (outputDir ++ "/parte_" ++ toString (i + 1) ++ ".pdf",
            (pages.drop (i * chunkSize)).take
              (min (i * chunkSize + chunkSize) pages.length - i * chunkSize))) := by
  have hrange := pyRange3_eq_map chunkSize hc pages.length 0 pages.length (by omega)
  simp only [Nat.sub_zero] at hrange
  rw [cortarPdfMain, hrange, List.map_map]
  apply List.map_congr_left
  intro a _
  simp only [Function.comp, Nat.zero_add]
  rw [Nat.mul_div_cancel a hc]

/-- C8: for a PDF with at least one page and a positive chunk size, the
cortar_pdf plugin writes exactly ceil(total_pages / chunk_size) files, the
i-th named parte_{i+1}.pdf under the output directory; every file except
possibly the last holds exactly chunk_size pages, and concatenating the
files in order reproduces every input page exactly once in order. -/
theorem c8_cortar_pdf_chunking {α : Type} (pages : List α) (outputDir : String)
    (chunkSize : Nat) (hp : 1 ≤ pages.length) (hc : 1 ≤ chunkSize) :
    (cortarPdfMain pages outputDir chunkSize).length
        = (pages.length + chunkSize - 1) / chunkSize
    ∧ (∀ i, ∀ h : i < (cortarPdfMain pages outputDir chunkSize).length,
        ((cortarPdfMain pages outputDir chunkSize).get ⟨i, h⟩).1
          = outputDir ++ "/parte_" ++ toString (i + 1) ++ ".pdf")
    ∧ (∀ i, ∀ h : i < (cortarPdfMain pages outputDir chunkSize).length,
        i + 1 < (cortarPdfMain pages outputDir chunkSize).length →
        ((cortarPdfMain pages outputDir chunkSize).get ⟨i, h⟩).2.length = chunkSize)
    ∧ ((cortarPdfMain pages outputDir chunkSize).map Prod.snd).flatten = pages := by
  have hcort := cortarPdfMain_eq_map pages outputDir chunkSize hc
  have hlen : (cortarPdfMain pages outputDir chunkSize).length
      = (pages.length + chunkSize - 1) / chunkSize := by
    rw [hcort, List.length_map, List.length_range]
  refine ⟨hlen, ?_, ?_, ?_⟩
  · intro i h
    rw [List.get_eq_getElem]
    simp only [hcort, List.getElem_map, List.getElem_range]
  · intro i h hlast
    rw [List.get_eq_getElem]
    simp only [hcort, List.getElem_map, List.getElem_range]
    rw [List.length_take, List.length_drop]
    have hiN : i + 1 < (pages.length + chunkSize - 1) / chunkSize := by
      rw [hlen] at hlast
      exact hlast
    have hmul : (i + 2) * chunkSize ≤ pages.length + chunkSize - 1 :=
      (Nat.le_div_iff_mul_le hc).mp (by omega)
    have hexp : (i + 2) * chunkSize = i * chunkSize + chunkSize + chunkSize := by ring
    rw [hexp] at hmul
    generalize i * chunkSize = A at hmul ⊢
    omega
  · have hfl := pyRange3_slices_flatten pages chunkSize hc pages.length 0 (by omega)
    rw [List.drop_zero] at hfl
    rw [cortarPdfMain, List.map_map]
    exact hfl

/-- Witness for C8 at a five-page document split in chunks of two. -/
theorem c8_cortar_pdf_chunking_witness :
    1 ≤ ([10, 20, 30, 40, 50] : List Nat).length ∧ 1 ≤ 2
    ∧ ((cortarPdfMain [10, 20, 30, 40, 50] "out" 2).length
          = (([10, 20, 30, 40, 50] : List Nat).length + 2 - 1) / 2
       ∧ (∀ i, ∀ h : i < (cortarPdfMain [10, 20, 30, 40, 50] "out" 2).length,
           ((cortarPdfMain [10, 20, 30, 40, 50] "out" 2).get ⟨i, h⟩).1
             = "out" ++ "/parte_" ++ toString (i + 1) ++ ".pdf")
       ∧ (∀ i, ∀ h : i < (cortarPdfMain [10, 20, 30, 40, 50] "out" 2).length,
           i + 1 < (cortarPdfMain [10, 20, 30, 40, 50] "out" 2).length →
           ((cortarPdfMain [10, 20, 30, 40, 50] "out" 2).get ⟨i, h⟩).2.length = 2)
       ∧ ((cortarPdfMain [10, 20, 30, 40, 50] "out" 2).map Prod.snd).flatten
           = [10, 20, 30, 40, 50]) :=
  ⟨by decide, by decide,
   c8_cortar_pdf_chunking [10, 20, 30, 40, 50] "out" 2 (by decide) (by decide)⟩

end ReflexPDF
